import Mathlib

/-!
Verification of the `stopwatch` microbenchmarking header (`include/stopwatch.h`).

The code is shallowly embedded as follows.

* A clock is modeled as a `ClockState`: an infinite stream of tick readings
  (`stream : Nat → Int`) together with a read index; each call to `now()`
  returns the reading at the current index and advances the index by one.
  This captures that `Clock::now()` is read fresh at each call site.
* The callable passed to `time`/`sample` is modeled as a state transformer
  `σ → Option σ`; `none` models the callable raising an exception.
* `timer<Clock>` is a structure holding the single immutable field `expiry`;
  `done`/`remaining` take the (possibly freshly read) `now` explicitly, and
  `doneFresh`/`remainingFresh` model the defaulted-argument calls that read
  the clock.
* Generic durations/time points are modeled as `Int` (a signed `rep`).  The
  `rdtscp_clock` has `rep = std::uint64_t`, so its arithmetic is modeled
  separately on `Nat` with explicit reduction modulo `2 ^ 64`.
* Default template arguments (`Clock = std::chrono::system_clock` on `timer`
  and `make_timer`, `Clock = rdtscp_clock` on `time` and `sample`) are
  compile-time facts; they are embedded as `ClockKind`-valued constants read
  off the template parameter lists.
-/

namespace Stopwatch

/-- A clock modeled as an infinite stream of tick readings plus the index of
the next read.  `stream k` is the value the `k`-th call to `now()` returns. -/
structure ClockState where
  stream : Nat → Int
  idx : Nat

/-- One call to `Clock::now()`: return the current reading, advance the read
index. -/
def ClockState.now (c : ClockState) : Int × ClockState :=
  (c.stream c.idx, ⟨c.stream, c.idx + 1⟩)

/-- The clock state after `n` further reads. -/
def ClockState.advance (c : ClockState) (n : Nat) : ClockState :=
  ⟨c.stream, c.idx + n⟩

/-- `timer<Clock>`: holds the single field `const time_point expiry`
(stopwatch.h line 54). -/
structure Timer where
  expiry : Int

/-- `explicit timer(const time_point expiry) : expiry(expiry)`
(stopwatch.h line 44). -/
def Timer.ofTimePoint (tp : Int) : Timer := ⟨tp⟩

/-- `explicit timer(const duration duration) : expiry(Clock::now() + duration)`
(stopwatch.h line 43): one fresh clock read at construction time. -/
def Timer.mkDuration (c : ClockState) (d : Int) : Timer × ClockState :=
  let r := c.now
  (⟨r.1 + d⟩, r.2)

/-- `done(time_point now) const { return now >= expiry; }`
(stopwatch.h lines 46-48). -/
def Timer.done (t : Timer) (now : Int) : Bool :=
  decide (now ≥ t.expiry)

/-- `remaining(time_point now) const { return expiry - now; }`
(stopwatch.h lines 50-52). -/
def Timer.remaining (t : Timer) (now : Int) : Int :=
  t.expiry - now

/-- `done()` with the defaulted argument `now = Clock::now()`: the default
argument expression is evaluated afresh at each call. -/
def Timer.doneFresh (t : Timer) (c : ClockState) : Bool × ClockState :=
  let r := c.now
  (t.done r.1, r.2)

/-- `remaining()` with the defaulted argument `now = Clock::now()`. -/
def Timer.remainingFresh (t : Timer) (c : ClockState) : Int × ClockState :=
  let r := c.now
  (t.remaining r.1, r.2)

/-- `make_timer(duration) { return timer<Clock>(duration); }`
(stopwatch.h lines 57-60). -/
def make_timer (c : ClockState) (d : Int) : Timer × ClockState :=
  Timer.mkDuration c d

/-- `time(Func&& function)` (stopwatch.h lines 63-68): read `start`, invoke the
callable once, read the end time, return `end - start`.  If the callable
raises (`none`), the exception propagates: the result is `.error` carrying the
ambient clock state (after only the `start` read — the second read never
happens) and the caller-visible callable state at the throw. -/
def time (f : σ → Option σ) (c : ClockState) (s : σ) :
    Except (ClockState × σ) (Int × ClockState × σ) :=
  let r := c.now
  match f s with
  | none => .error (r.2, s)
  | some s' =>
      let r2 := r.2.now
      .ok (r2.1 - r.1, r2.2, s')

/-- The loop body of `sample` (stopwatch.h lines 75-77): `samples[i] =
time<Clock>(function)` for `i = 0 .. N-1`, accumulating in order. -/
def sampleLoop (f : σ → Option σ) :
    Nat → ClockState → σ → List Int → Except (ClockState × σ) (List Int × ClockState × σ)
  | 0, c, s, acc => .ok (acc, c, s)
  | n + 1, c, s, acc =>
      match time f c s with
      | .error e => .error e
      | .ok (d, c', s') => sampleLoop f n c' s' (acc ++ [d])

/-- `sample<N>(Func&& function)` (stopwatch.h lines 71-81): run the timing loop
`N` times, then `std::sort` the samples ascending and return them. -/
def sample (N : Nat) (f : σ → Option σ) (c : ClockState) (s : σ) :
    Except (ClockState × σ) (List Int × ClockState × σ) :=
  match sampleLoop f N c s [] with
  | .error e => .error e
  | .ok (l, c', s') => .ok (l.mergeSort (fun a b => decide (a ≤ b)), c', s')

/-- The clock types appearing in the header. -/
inductive ClockKind where
  | rdtscpClock
  | systemClock
deriving DecidableEq

/-- Default template argument of `timer`: `template <class Clock =
std::chrono::system_clock>` (stopwatch.h line 38). -/
def timerDefaultClock : ClockKind := .systemClock

/-- Default template argument of `make_timer`: `template <class Clock =
std::chrono::system_clock>` (stopwatch.h line 57). -/
def makeTimerDefaultClock : ClockKind := .systemClock

/-- Default template argument of `time`: `template <class Clock =
rdtscp_clock, class Func>` (stopwatch.h line 63). -/
def timeDefaultClock : ClockKind := .rdtscpClock

/-- Default template argument of `sample`: `template <std::size_t N, class
Clock = rdtscp_clock, class Func>` (stopwatch.h line 71). -/
def sampleDefaultClock : ClockKind := .rdtscpClock

/-- `rdtscp_clock::now()` (stopwatch.h lines 18-28): the rdtscp instruction
yields the high and the low 32 bits of the counter, combined as
`(uint64_t(hi) << 32) | lo`. -/
def rdtscpNow (hi lo : Nat) : Nat :=
  (hi <<< 32) ||| lo

/-- `rdtscp_clock::period = std::ratio<1>` (stopwatch.h line 14), i.e. the
rational constant 1/1. -/
def rdtscpPeriod : Nat × Nat := (1, 1)

/-- The modulus of `rdtscp_clock::rep = std::uint64_t`. -/
def u64Mod : Nat := 2 ^ 64

/-- `timer<rdtscp_clock>::remaining`: the subtraction `expiry - now` performed
on the unsigned 64-bit `rep` (stopwatch.h lines 13, 50-52), i.e. modular
wraparound subtraction. -/
def rdtscpRemaining (expiry now : Nat) : Nat :=
  (expiry + u64Mod - now % u64Mod) % u64Mod

/-- Observable queries on a timer (`done` / `remaining` with explicit now). -/
inductive Query where
  | isDone (now : Int)
  | timeLeft (now : Int)

/-- Replies to timer queries. -/
inductive Reply where
  | isDone (b : Bool)
  | timeLeft (d : Int)
deriving DecidableEq

/-- Run one query against a timer; both member functions are `const`, so the
timer value is returned unchanged alongside the reply. -/
def Timer.runQuery (t : Timer) : Query → Reply × Timer
  | .isDone n => (.isDone (t.done n), t)
  | .timeLeft n => (.timeLeft (t.remaining n), t)

/-- Run a sequence of queries against a timer, threading the timer state. -/
def Timer.runQueries (t : Timer) : List Query → List Reply × Timer
  | [] => ([], t)
  | q :: qs =>
      let r := t.runQuery q
      let rest := r.2.runQueries qs
      (r.1 :: rest.1, rest.2)

/-- The reply each query gets, as a pure function of the expiry value and the
supplied now. -/
def replyOf (e : Int) : Query → Reply
  | .isDone n => .isDone (decide (e ≤ n))
  | .timeLeft n => .timeLeft (e - n)

/-- The exact (unsorted) duration list produced by `n` timing iterations
starting from clock state `c`: each iteration reads the stream twice (start,
then end) and records their difference. -/
def sampleDurations (c : ClockState) : Nat → List Int
  | 0 => []
  | n + 1 => (c.stream (c.idx + 1) - c.stream c.idx) :: sampleDurations (c.advance 2) n

/-- A callable that completes on every invocation except the `k`-th, where it
raises; its state counts completed invocations. -/
def failOn (k : Nat) : Nat → Option Nat :=
  fun n => if n + 1 = k then none else some (n + 1)

/-- A concrete clock whose reading at the `n`-th call is `n`. -/
def witnessClock : ClockState := ⟨fun n => (n : Int), 0⟩

theorem time_total (g : σ → σ) (c : ClockState) (s : σ) :
    time (fun x => some (g x)) c s =
      .ok (c.stream (c.idx + 1) - c.stream c.idx, c.advance 2, g s) := rfl

theorem sampleDurations_length (c : ClockState) (n : Nat) :
    (sampleDurations c n).length = n := by
  induction n generalizing c with
  | zero => rfl
  | succ n ih => simp [sampleDurations, ih]

theorem sampleLoop_total (g : σ → σ) (n : Nat) (c : ClockState) (s : σ) (acc : List Int) :
    sampleLoop (fun x => some (g x)) n c s acc =
      .ok (acc ++ sampleDurations c n, c.advance (2 * n), g^[n] s) := by
  induction n generalizing c s acc with
  | zero => simp [sampleLoop, sampleDurations, ClockState.advance]
  | succ n ih =>
      rw [sampleLoop, time_total]
      dsimp only
      rw [ih]
      have hadv : (c.advance 2).advance (2 * n) = c.advance (2 * (n + 1)) := by
        simp only [ClockState.advance, ClockState.mk.injEq, true_and]
        omega
      rw [hadv]
      simp [sampleDurations, Function.iterate_succ_apply]

theorem sorted_le_mergeSort (l : List Int) :
    (List.mergeSort l fun a b => decide (a ≤ b)).Sorted (· ≤ ·) := by
  have h := @List.sorted_mergeSort Int (fun a b => decide (a ≤ b))
      (fun a b c h1 h2 => by
        simp only [decide_eq_true_eq] at *
        exact le_trans h1 h2)
      (fun a b => by
        simp only [Bool.or_eq_true, decide_eq_true_eq]
        exact le_total a b) l
  exact List.Pairwise.imp (fun hab => by simpa using hab) h

theorem sampleLoop_failOn (k n m : Nat) (c : ClockState) (acc : List Int)
    (h1 : m < k) (h2 : k ≤ m + n) :
    sampleLoop (failOn k) n c m acc = .error (c.advance (2 * (k - 1 - m) + 1), k - 1) := by
  induction n generalizing m c acc with
  | zero => omega
  | succ n ih =>
      rw [sampleLoop]
      by_cases hm : m + 1 = k
      · have ht : time (failOn k) c m = .error (c.advance 1, m) := by
          simp [time, failOn, hm, ClockState.now, ClockState.advance]
        rw [ht]
        have hk1 : k - 1 - m = 0 := by omega
        have hm1 : k - 1 = m := by omega
        rw [hk1, hm1]
      · have ht : time (failOn k) c m =
            .ok (c.stream (c.idx + 1) - c.stream c.idx, c.advance 2, m + 1) := by
          simp [time, failOn, hm, ClockState.now, ClockState.advance]
        rw [ht]
        dsimp only
        rw [ih (m + 1) (c.advance 2) (acc ++ [c.stream (c.idx + 1) - c.stream c.idx])
          (by omega) (by omega)]
        have hadv : (c.advance 2).advance (2 * (k - 1 - (m + 1)) + 1) =
            c.advance (2 * (k - 1 - m) + 1) := by
          simp only [ClockState.advance, ClockState.mk.injEq, true_and]
          omega
        rw [hadv]

/-- Claim C1: for every sample count `N` (including `N = 0`) and every callable
that completes without raising, `sample<N>` returns exactly `N` duration
elements, the returned sequence is sorted ascending, and the callable is
invoked exactly `N` times (the callable state is the `N`-th iterate and the
clock is read exactly `2 * N` times); for `N = 0` the callable is never
invoked and the empty sequence is returned with the clock untouched. -/
theorem sample_count_sorted (g : σ → σ) (N : Nat) (c : ClockState) (s : σ) :
    ∃ l : List Int,
      sample N (fun x => some (g x)) c s = .ok (l, c.advance (2 * N), g^[N] s) ∧
      l.length = N ∧
      l.Sorted (· ≤ ·) ∧
      sample 0 (fun x => some (g x)) c s = .ok ([], c, s) := by
  refine ⟨(sampleDurations c N).mergeSort (fun a b => decide (a ≤ b)), ?_, ?_, ?_, ?_⟩
  · rw [sample, sampleLoop_total]
    dsimp only
    rw [List.nil_append]
  · rw [List.length_mergeSort, sampleDurations_length]
  · exact sorted_le_mergeSort (sampleDurations c N)
  · rw [sample, sampleLoop_total]
    dsimp only
    simp [sampleDurations, ClockState.advance]

/-- Claim C2: `timer.done(now)` returns true iff `now >= expiry` (false for
`now` strictly before `expiry`, true at or after it); with no argument
supplied, `done()` reads the clock's current time fresh at the call and
advances it by one read. -/
theorem done_iff_now_ge_expiry (t : Timer) (now : Int) (c : ClockState) :
    (t.done now = true ↔ t.expiry ≤ now) ∧
    (t.done now = false ↔ now < t.expiry) ∧
    t.doneFresh c = (t.done (c.stream c.idx), c.advance 1) := by
  refine ⟨?_, ?_, rfl⟩ <;> simp [Timer.done, ge_iff_le]

/-- Claim C3: `timer.remaining(now)` equals `expiry - now` exactly; for a timer
constructed from an absolute time point `t`, `remaining(t)` is the zero
duration and `remaining(now)` is `t - now` for any `now`. -/
theorem remaining_eq_expiry_sub_now (t : Timer) (now tp : Int) :
    t.remaining now = t.expiry - now ∧
    (Timer.ofTimePoint tp).remaining tp = 0 ∧
    (Timer.ofTimePoint tp).remaining now = tp - now := by
  refine ⟨rfl, ?_, rfl⟩
  simp [Timer.remaining, Timer.ofTimePoint]

/-- Claim C4: a timer constructed from a relative duration `d` has
`expiry = Clock::now() + d` evaluated at construction time: its expiry is the
clock reading at the construction instant plus `d`, and exactly one clock
read happens at construction, so the deadline is anchored to the moment of
construction. -/
theorem timer_duration_anchored (c : ClockState) (d : Int) :
    (Timer.mkDuration c d).1.expiry = c.stream c.idx + d ∧
    (Timer.mkDuration c d).2 = c.advance 1 :=
  ⟨rfl, rfl⟩

/-- Claim C5: if the callable raises, `time` propagates the failure with no
timing value — in particular the second (end) clock read never happens, the
clock having advanced by exactly the one start read; and if the callable
raises on its `k`-th invocation during sampling, `sample` propagates the
failure with no (partial) sample sequence, after exactly `k - 1` completed
invocations and `2 * (k - 1) + 1` clock reads, so invocations beyond `k`
never occur. -/
theorem callable_failure_propagates (k N : Nat) (c : ClockState)
    (h1 : 1 ≤ k) (h2 : k ≤ N) :
    (∀ (α : Type) (f : α → Option α) (c₀ : ClockState) (s : α),
        f s = none → time f c₀ s = .error (c₀.advance 1, s)) ∧
    sample N (failOn k) c 0 = .error (c.advance (2 * (k - 1) + 1), k - 1) := by
  constructor
  · intro α f c₀ s hf
    simp [time, hf, ClockState.now, ClockState.advance]
  · rw [sample, sampleLoop_failOn k N 0 c [] (by omega) (by omega)]
    rfl

/-- Claim C5 witness: at `k = 2`, `N = 3`, with the identity-stream clock. -/
theorem callable_failure_propagates_witness :
    (1 ≤ 2 ∧ 2 ≤ 3) ∧
      ((∀ (α : Type) (f : α → Option α) (c₀ : ClockState) (s : α),
          f s = none → time f c₀ s = .error (c₀.advance 1, s)) ∧
        sample 3 (failOn 2) witnessClock 0 =
          .error (witnessClock.advance (2 * (2 - 1) + 1), 2 - 1)) :=
  ⟨⟨by decide, by decide⟩,
    callable_failure_propagates 2 3 witnessClock (by decide) (by decide)⟩

/-- Claim C6 counterexample: not every clock-parameterized component defaults
to the hardware-counter clock — the `timer` template's default clock
parameter is `std::chrono::system_clock`, not `rdtscp_clock`. -/
theorem timer_default_not_rdtscp : timerDefaultClock ≠ ClockKind.rdtscpClock := by
  decide

/-- Claim C6 (amended): the single-invocation timing function and the sampler
default their clock parameter to the hardware-counter clock `rdtscp_clock`,
but the timer and the `make_timer` helper default to
`std::chrono::system_clock`. -/
theorem default_clock_parameters :
    timeDefaultClock = ClockKind.rdtscpClock ∧
    sampleDefaultClock = ClockKind.rdtscpClock ∧
    timerDefaultClock = ClockKind.systemClock ∧
    makeTimerDefaultClock = ClockKind.systemClock := by
  decide

/-- Claim C7: the timer's `expiry` is fixed at construction and never mutated:
running any sequence of queries leaves the timer unchanged, and every reply
is a pure function of `expiry` and the supplied `now` alone. -/
theorem timer_immutable_queries_pure (t : Timer) (qs : List Query) :
    (t.runQueries qs).2 = t ∧ (t.runQueries qs).1 = qs.map (replyOf t.expiry) := by
  induction qs with
  | nil => exact ⟨rfl, rfl⟩
  | cons q qs ih =>
      cases q <;>
        simp [Timer.runQueries, Timer.runQuery, replyOf, Timer.done, Timer.remaining,
          ge_iff_le, ih.1, ih.2]

/-- Claim C8: the high-resolution clock's `rep` is unsigned 64-bit (its `now`
value always fits below `2 ^ 64`), its tick period is the ratio `1 : 1`, and
`now()` combines the counter's high and low 32-bit halves as
`(hi <<< 32) ||| lo = hi * 2 ^ 32 + lo`. -/
theorem rdtscp_now_combines_halves (hi lo : Nat) (hhi : hi < 2 ^ 32) (hlo : lo < 2 ^ 32) :
    rdtscpNow hi lo = hi * 2 ^ 32 + lo ∧
    rdtscpNow hi lo < 2 ^ 64 ∧
    rdtscpPeriod = (1, 1) := by
  refine ⟨?_, ?_, rfl⟩
  · rw [rdtscpNow, Nat.shiftLeft_eq, Nat.mul_comm, ← Nat.mul_add_lt_is_or hlo, Nat.mul_comm]
  · have h := Nat.append_lt hlo hhi
    simpa [rdtscpNow] using h

/-- Claim C8 witness: at `hi = 3`, `lo = 5`. -/
theorem rdtscp_now_combines_halves_witness :
    (3 < 2 ^ 32 ∧ 5 < 2 ^ 32) ∧
      (rdtscpNow 3 5 = 3 * 2 ^ 32 + 5 ∧ rdtscpNow 3 5 < 2 ^ 64 ∧ rdtscpPeriod = (1, 1)) :=
  ⟨⟨by decide, by decide⟩, rdtscp_now_combines_halves 3 5 (by decide) (by decide)⟩

/-- Claim C9: for the hardware-counter clock (unsigned 64-bit `rep`),
`remaining(now)` with `now > expiry` is not zero (nor negative — the result
type is unsigned): the subtraction wraps, yielding `(expiry - now)` modulo
`2 ^ 64`, i.e. the very large value `2 ^ 64 - (now - expiry)`. -/
theorem rdtscp_remaining_wraps (expiry now : Nat)
    (he : expiry < 2 ^ 64) (hn : now < 2 ^ 64) (h : expiry < now) :
    rdtscpRemaining expiry now = 2 ^ 64 - (now - expiry) ∧
    0 < rdtscpRemaining expiry now ∧
    (rdtscpRemaining expiry now : Int) % 2 ^ 64 = ((expiry : Int) - now) % 2 ^ 64 := by
  unfold rdtscpRemaining u64Mod
  refine ⟨by omega, by omega, by omega⟩

/-- Claim C9 witness: at `expiry = 3`, `now = 5`, remaining is
`2 ^ 64 - 2`. -/
theorem rdtscp_remaining_wraps_witness :
    (3 < 2 ^ 64 ∧ 5 < 2 ^ 64 ∧ 3 < 5) ∧
      (rdtscpRemaining 3 5 = 2 ^ 64 - (5 - 3) ∧ 0 < rdtscpRemaining 3 5 ∧
        (rdtscpRemaining 3 5 : Int) % 2 ^ 64 = ((3 : Int) - 5) % 2 ^ 64) :=
  ⟨⟨by decide, by decide, by decide⟩,
    rdtscp_remaining_wraps 3 5 (by decide) (by decide) (by decide)⟩

/-- Claim C10: `make_timer<Clock>(d)` constructs exactly the same timer as the
direct `timer<Clock>(d)` duration constructor — same resulting state, with
`expiry` anchored to `Clock::now() + d` at construction — so the helper adds
no behavioral difference. -/
theorem make_timer_equiv_direct (c : ClockState) (d : Int) :
    make_timer c d = Timer.mkDuration c d ∧
    (make_timer c d).1.expiry = c.stream c.idx + d ∧
    (make_timer c d).2 = c.advance 1 :=
  ⟨rfl, rfl, rfl⟩

end Stopwatch
